import Mathlib

/-!
Verification of the event-driven order/payment saga core of the
`ecom-micro` repository: event envelopes, the idempotency ledger,
the order saga state machine, the payment webhook handler, the broker
delivery-order contract, and the payment service's HTTP startup and
health endpoint.

The inter-service saga logic is described in the repository's design
document; the Kafka wiring in the payment service source is commented
out, so the saga components are modelled from the spec (each such
definition says so in its doc comment).  The payment service's HTTP
startup and `/health` route are embedded directly from
`apps/payment-service/src/index.ts`.
-/

namespace EcomMicro

/-- Modelled from the spec: the enumerated `eventType` strings of the
inter-service message contracts (`order.created`, `payment.initiated`,
`payment.completed`, `payment.failed`, `order.paid`, `order.cancelled`). -/
inductive EventType where
  | orderCreated
  | paymentInitiated
  | paymentCompleted
  | paymentFailed
  | orderPaid
  | orderCancelled
deriving DecidableEq

/-- Modelled from the spec: the closed, tagged union of payload variants
keyed by `eventType` (design note on duck-typed payload shapes). -/
inductive Payload where
  | orderCreated (orderId : Nat) (amount : Nat)
  | paymentInitiated (orderId : Nat)
  | paymentCompleted (orderId : Nat)
  | paymentFailed (orderId : Nat)
  | orderPaid (orderId : Nat)
  | orderCancelled (orderId : Nat)
deriving DecidableEq

/-- Modelled from the spec: the Event Envelope wire format — `eventId`
(globally unique), `eventType`, `occurredAt`, `aggregateId` (the order
identifier, used as partition/ordering key), `payload`, `schemaVersion`. -/
structure Envelope where
  eventId : Nat
  eventType : EventType
  occurredAt : Nat
  aggregateId : Nat
  payload : Payload
  schemaVersion : Nat
deriving DecidableEq

/-- Modelled from the spec: the Idempotency Ledger, a per-consumer record
of processed message identifiers keyed by `(consumerGroup, eventId)`. -/
abbrev Ledger := List (String × Nat)

/-- Ledger lookup for the composite key `(consumerGroup, eventId)`. -/
def ledgerHas (led : Ledger) (group : String) (eventId : Nat) : Bool :=
  led.contains (group, eventId)

/-- Modelled from the spec: the idempotent consumption discipline shared by
every consumer.  Before applying any transition the consumer checks the
Idempotency Ledger for `(consumerGroup, eventId)`; if present it skips
side effects and acknowledges immediately.  Otherwise it runs the
consumer-specific handler `apply`; on success (`some`) the new state and
published side effects are committed together with a fresh ledger record;
on handler failure (`none`) nothing changes and the message is not
acknowledged (it will be redelivered). -/
def processEnvelope {σ π : Type} (group : String)
    (apply : σ → Envelope → Option (σ × List π))
    (led : Ledger) (st : σ) (e : Envelope) : Ledger × σ × List π :=
  if ledgerHas led group e.eventId then
    (led, st, [])
  else
    match apply st e with
    | some (st', out) => ((group, e.eventId) :: led, st', out)
    | none => (led, st, [])

theorem ledgerHas_cons_self (led : Ledger) (group : String) (eventId : Nat) :
    ledgerHas ((group, eventId) :: led) group eventId = true := by
  simp [ledgerHas, List.contains_cons]

/-- C1: replaying the same Envelope (same `eventId`) after a first
successful application produces no additional observable side effect:
a consumer finding `(consumerGroup, eventId)` in the Idempotency Ledger
skips side effects and acknowledges immediately, leaving all state
unchanged; and once an envelope has been successfully applied, processing
it again changes nothing and publishes nothing.  This holds for every
consumer (`apply` is arbitrary). -/
theorem replay_produces_no_side_effect {σ π : Type} (group : String)
    (apply : σ → Envelope → Option (σ × List π))
    (led : Ledger) (st : σ) (e : Envelope) :
    (ledgerHas led group e.eventId = true →
      processEnvelope group apply led st e = (led, st, [])) ∧
    (∀ st₁ out₁, apply st e = some (st₁, out₁) →
      processEnvelope group apply
          (processEnvelope group apply led st e).1
          (processEnvelope group apply led st e).2.1 e =
        ((processEnvelope group apply led st e).1,
         (processEnvelope group apply led st e).2.1, [])) := by
  constructor
  · intro h
    simp [processEnvelope, h]
  · intro st₁ out₁ happ
    by_cases h : ledgerHas led group e.eventId
    · simp [processEnvelope, h]
    · simp only [processEnvelope, h, if_false, happ]
      simp [ledgerHas_cons_self]

/-- Witness for C1: a concrete consumer (a counter that publishes the
event id it sees) applied to a concrete envelope: the second processing
of the same envelope changes nothing and publishes nothing. -/
theorem replay_produces_no_side_effect_witness :
    (fun (n : Nat) (e : Envelope) => some (n + 1, [e.eventId])) 7
        ⟨42, .orderCreated, 0, 1, .orderCreated 1 500, 1⟩ =
      some (8, [42]) ∧
    processEnvelope "order-service"
        (fun (n : Nat) (e : Envelope) => some (n + 1, [e.eventId]))
        [("order-service", 42)] 8
        ⟨42, .orderCreated, 0, 1, .orderCreated 1 500, 1⟩ =
      ([("order-service", 42)], 8, []) := by
  refine ⟨rfl, ?_⟩
  have h := (replay_produces_no_side_effect "order-service"
    (fun (n : Nat) (e : Envelope) => some (n + 1, [e.eventId]))
    [] 7 ⟨42, .orderCreated, 0, 1, .orderCreated 1 500, 1⟩).2 8 [42] rfl
  exact h

/-- Modelled from the spec: the order saga states
`Created → PaymentPending → Paid → Fulfilling → Completed`, with the
alternate terminal `Cancelled`. -/
inductive OrderStatus where
  | Created
  | PaymentPending
  | Paid
  | Fulfilling
  | Completed
  | Cancelled
deriving DecidableEq

/-- Terminal states of the saga: `Completed` and `Cancelled`. -/
def isTerminal : OrderStatus → Bool
  | .Completed => true
  | .Cancelled => true
  | _ => false

/-- Modelled from the spec: the Order Aggregate — `orderId`, `customerId`,
`amount`, `status`, `lastEventId` applied, `version` (monotonically
incremented on every state transition). -/
structure Order where
  orderId : Nat
  customerId : Nat
  amount : Nat
  status : OrderStatus
  lastEventId : Option Nat
  version : Nat
deriving DecidableEq

/-- A publication request handed to the Broker Client: the event type to
publish and the partition key (`aggregateId`) it is published under. -/
structure Publish where
  eventType : EventType
  aggregateId : Nat
deriving DecidableEq

/-- Modelled from the spec: the Order service's transition table
(event → guard → new state → event to publish).
`payment.completed` with state in {`Created`, `PaymentPending`} goes to
`Paid` and publishes `order.paid`; `payment.failed` with state in
{`Created`, `PaymentPending`} goes to `Cancelled` and publishes
`order.cancelled`; `order.paid` consumed by the service's own fulfillment
step enters `Fulfilling` and, on fulfillment success (the external
collaborator's outcome, `fulfillOk`), reaches `Completed`; a fulfillment
failure is a handler failure (the message is not acknowledged and will be
redelivered, nothing is persisted).  Any other event is out of causal
order and is held for retry (`none`: no state change, no ack). -/
def orderTransition (fulfillOk : Bool) (s : OrderStatus) (t : EventType) :
    Option (OrderStatus × Option EventType) :=
  match t, s with
  | .paymentCompleted, .Created => some (.Paid, some .orderPaid)
  | .paymentCompleted, .PaymentPending => some (.Paid, some .orderPaid)
  | .paymentFailed, .Created => some (.Cancelled, some .orderCancelled)
  | .paymentFailed, .PaymentPending => some (.Cancelled, some .orderCancelled)
  | .orderPaid, .Paid => if fulfillOk then some (.Completed, none) else none
  | _, _ => none

/-- Modelled from the spec: the Order service's handler body.  An event
whose aggregate is already in a terminal state is a no-op (acknowledged,
logged, not reprocessed); otherwise the transition table is consulted and
an applied transition persists the new status with `version` incremented
and `lastEventId` updated, publishing the table's event under the
aggregate's partition key. -/
def orderApply (fulfillOk : Bool) (agg : Order) (e : Envelope) :
    Option (Order × List Publish) :=
  if isTerminal agg.status then
    some (agg, [])
  else
    match orderTransition fulfillOk agg.status e.eventType with
    | some (s', pub) =>
        some ({ agg with status := s', version := agg.version + 1,
                         lastEventId := some e.eventId },
              match pub with
              | some t => [⟨t, e.aggregateId⟩]
              | none => [])
    | none => none

/-- The consumer group name of the Order service's saga consumer. -/
def orderGroup : String := "order-service"

/-- One delivery to the Order Saga State Machine: the idempotency check
followed by `orderApply`. -/
def orderStep (fulfillOk : Bool) (led : Ledger) (agg : Order) (e : Envelope) :
    Ledger × Order × List Publish :=
  processEnvelope orderGroup (orderApply fulfillOk) led agg e

/-- Position of a status along the saga chain
`Created → PaymentPending → Paid → Fulfilling → Completed`; `Cancelled`
is terminal and past the chain. -/
def chainRank : OrderStatus → Nat
  | .Created => 0
  | .PaymentPending => 1
  | .Paid => 2
  | .Fulfilling => 3
  | .Completed => 4
  | .Cancelled => 5

theorem orderTransition_rank_mono :
    ∀ (fulfillOk : Bool) (s : OrderStatus) (t : EventType),
      (orderTransition fulfillOk s t).elim True
        (fun r => chainRank s ≤ chainRank r.1) := by
  intro fulfillOk s t
  cases fulfillOk <;> cases s <;> cases t <;> simp [orderTransition, chainRank]

theorem orderStep_rank_mono (fulfillOk : Bool) (led : Ledger) (agg : Order)
    (e : Envelope) :
    chainRank agg.status ≤ chainRank (orderStep fulfillOk led agg e).2.1.status := by
  unfold orderStep processEnvelope
  by_cases h : ledgerHas led orderGroup e.eventId
  · simp [h]
  · simp only [h, if_false]
    unfold orderApply
    by_cases ht : isTerminal agg.status
    · simp [ht]
    · simp only [ht, if_false]
      have hm := orderTransition_rank_mono fulfillOk agg.status e.eventType
      cases htr : orderTransition fulfillOk agg.status e.eventType with
      | none => simp
      | some r =>
          rw [htr] at hm
          simpa using hm

/-- One delivery together with the fulfillment collaborator's outcome
during its handling, folded over the saga state. -/
def sagaStep (p : Ledger × Order) (d : Envelope × Bool) : Ledger × Order :=
  ((orderStep d.2 p.1 p.2 d.1).1, (orderStep d.2 p.1 p.2 d.1).2.1)

/-- The sequence of persisted statuses an order passes through while a
list of deliveries is processed (initial status included). -/
def statusTrace (led : Ledger) (agg : Order) :
    List (Envelope × Bool) → List OrderStatus
  | [] => [agg.status]
  | d :: ds =>
      agg.status ::
        statusTrace (sagaStep (led, agg) d).1 (sagaStep (led, agg) d).2 ds

theorem statusTrace_head (led : Ledger) (agg : Order)
    (ds : List (Envelope × Bool)) :
    (statusTrace led agg ds).head? = some agg.status := by
  cases ds <;> rfl

/-- C2: for every sequence of deliveries to the Order Saga State Machine
(duplicated and reordered deliveries included), the order's status never
transitions backward along
`Created → PaymentPending → Paid → Fulfilling → Completed`: along the
whole status trace the chain position is non-decreasing. -/
theorem status_never_regresses (led : Ledger) (agg : Order)
    (ds : List (Envelope × Bool)) :
    List.Chain' (fun a b => chainRank a ≤ chainRank b)
      (statusTrace led agg ds) := by
  induction ds generalizing led agg with
  | nil => simp [statusTrace]
  | cons d ds ih =>
      rw [statusTrace]
      refine List.Chain'.cons' (ih _ _) ?_
      intro y hy
      rw [statusTrace_head] at hy
      cases hy
      exact orderStep_rank_mono d.2 led agg d.1

theorem orderStep_terminal (fulfillOk : Bool) (led : Ledger) (agg : Order)
    (e : Envelope) (h : isTerminal agg.status = true) :
    (orderStep fulfillOk led agg e).2.1 = agg ∧
    (orderStep fulfillOk led agg e).2.2 = [] := by
  unfold orderStep processEnvelope
  by_cases hl : ledgerHas led orderGroup e.eventId
  · simp [hl]
  · simp [hl, orderApply, h]

/-- C3: an event delivered to an order already in a terminal state
(`Completed` or `Cancelled`) is a no-op: the aggregate (status and all
other fields) is unchanged and nothing is published. -/
theorem terminal_state_no_op (fulfillOk : Bool) (led : Ledger) (agg : Order)
    (e : Envelope) (h : isTerminal agg.status = true) :
    (orderStep fulfillOk led agg e).2.1 = agg ∧
    (orderStep fulfillOk led agg e).2.2 = [] :=
  orderStep_terminal fulfillOk led agg e h

/-- Witness for C3: a completed order ignores a late `payment.failed`. -/
theorem terminal_state_no_op_witness :
    isTerminal (OrderStatus.Completed) = true ∧
    (orderStep true [] ⟨1, 10, 500, .Completed, some 3, 4⟩
        ⟨77, .paymentFailed, 9, 1, .paymentFailed 1, 1⟩).2.1 =
      ⟨1, 10, 500, .Completed, some 3, 4⟩ ∧
    (orderStep true [] ⟨1, 10, 500, .Completed, some 3, 4⟩
        ⟨77, .paymentFailed, 9, 1, .paymentFailed 1, 1⟩).2.2 = [] := by
  refine ⟨rfl, ?_⟩
  exact terminal_state_no_op true [] ⟨1, 10, 500, .Completed, some 3, 4⟩
    ⟨77, .paymentFailed, 9, 1, .paymentFailed 1, 1⟩ rfl

/-- C4: consuming `payment.completed` for an order in `Created` or
`PaymentPending` (with the event not yet in the ledger) transitions the
order to `Paid`, persists it with `version` incremented by one, and
publishes `order.paid` under the order's aggregate id; redelivering the
same `payment.completed` envelope afterwards leaves the state at `Paid`
with the version unchanged. -/
theorem payment_completed_pays (fulfillOk : Bool) (led : Ledger) (agg : Order)
    (e : Envelope)
    (hs : agg.status = .Created ∨ agg.status = .PaymentPending)
    (ht : e.eventType = .paymentCompleted)
    (hl : ledgerHas led orderGroup e.eventId = false) :
    (orderStep fulfillOk led agg e).2.1.status = .Paid ∧
    (orderStep fulfillOk led agg e).2.1.version = agg.version + 1 ∧
    (orderStep fulfillOk led agg e).2.2 = [⟨.orderPaid, e.aggregateId⟩] ∧
    (∀ fulfillOk' : Bool,
      orderStep fulfillOk' (orderStep fulfillOk led agg e).1
          (orderStep fulfillOk led agg e).2.1 e =
        ((orderStep fulfillOk led agg e).1,
         (orderStep fulfillOk led agg e).2.1, [])) := by
  have hstep : orderStep fulfillOk led agg e =
      ((orderGroup, e.eventId) :: led,
       { agg with status := .Paid, version := agg.version + 1,
                  lastEventId := some e.eventId },
       [⟨.orderPaid, e.aggregateId⟩]) := by
    rcases hs with h | h <;>
      simp [orderStep, processEnvelope, orderApply, orderTransition,
        isTerminal, h, ht, hl]
  refine ⟨by rw [hstep], by rw [hstep], by rw [hstep], ?_⟩
  intro fulfillOk'
  rw [hstep]
  simp [orderStep, processEnvelope, ledgerHas_cons_self]

/-- Witness for C4 (Scenario A): a `Created` order with version 0 paid by
`payment.completed` with event id `E1 = 100`: it reaches `Paid` at
version 1 and redelivering `E1` leaves `Paid` at version 1. -/
theorem payment_completed_pays_witness :
    ((⟨1, 10, 500, .Created, none, 0⟩ : Order).status = .Created ∨
      (⟨1, 10, 500, .Created, none, 0⟩ : Order).status = .PaymentPending) ∧
    (orderStep true [] ⟨1, 10, 500, .Created, none, 0⟩
        ⟨100, .paymentCompleted, 7, 1, .paymentCompleted 1, 1⟩).2.1.status =
      .Paid ∧
    (orderStep true [] ⟨1, 10, 500, .Created, none, 0⟩
        ⟨100, .paymentCompleted, 7, 1, .paymentCompleted 1, 1⟩).2.1.version =
      0 + 1 := by
  have h := payment_completed_pays true [] ⟨1, 10, 500, .Created, none, 0⟩
    ⟨100, .paymentCompleted, 7, 1, .paymentCompleted 1, 1⟩
    (Or.inl rfl) rfl rfl
  exact ⟨Or.inl rfl, h.1, h.2.1⟩

/-- C5: consuming `payment.failed` for an order in `Created` or
`PaymentPending` (with the event not yet in the ledger) transitions the
order to `Cancelled`, persists it, and publishes `order.cancelled`; a
`payment.completed` envelope arriving after the `Cancelled` transition is
a no-op under the terminal-state guard (state and publishes unchanged,
for any ledger and any such envelope). -/
theorem payment_failed_cancels (fulfillOk : Bool) (led : Ledger) (agg : Order)
    (e : Envelope)
    (hs : agg.status = .Created ∨ agg.status = .PaymentPending)
    (ht : e.eventType = .paymentFailed)
    (hl : ledgerHas led orderGroup e.eventId = false) :
    (orderStep fulfillOk led agg e).2.1.status = .Cancelled ∧
    (orderStep fulfillOk led agg e).2.1.version = agg.version + 1 ∧
    (orderStep fulfillOk led agg e).2.2 = [⟨.orderCancelled, e.aggregateId⟩] ∧
    (∀ (fulfillOk' : Bool) (led' : Ledger) (e₂ : Envelope),
      e₂.eventType = .paymentCompleted →
      (orderStep fulfillOk' led' (orderStep fulfillOk led agg e).2.1 e₂).2.1 =
        (orderStep fulfillOk led agg e).2.1 ∧
      (orderStep fulfillOk' led' (orderStep fulfillOk led agg e).2.1 e₂).2.2 =
        []) := by
  have hstep : orderStep fulfillOk led agg e =
      ((orderGroup, e.eventId) :: led,
       { agg with status := .Cancelled, version := agg.version + 1,
                  lastEventId := some e.eventId },
       [⟨.orderCancelled, e.aggregateId⟩]) := by
    rcases hs with h | h <;>
      simp [orderStep, processEnvelope, orderApply, orderTransition,
        isTerminal, h, ht, hl]
  refine ⟨by rw [hstep], by rw [hstep], by rw [hstep], ?_⟩
  intro fulfillOk' led' e₂ _
  rw [hstep]
  exact orderStep_terminal fulfillOk' led'
    { agg with status := .Cancelled, version := agg.version + 1,
               lastEventId := some e.eventId } e₂ rfl

/-- Witness for C5 (Scenario B): `payment.failed` on a `Created` order
cancels it, and a late `payment.completed` afterwards changes nothing. -/
theorem payment_failed_cancels_witness :
    ((⟨2, 11, 300, .Created, none, 0⟩ : Order).status = .Created ∨
      (⟨2, 11, 300, .Created, none, 0⟩ : Order).status = .PaymentPending) ∧
    (orderStep true [] ⟨2, 11, 300, .Created, none, 0⟩
        ⟨200, .paymentFailed, 5, 2, .paymentFailed 2, 1⟩).2.1.status =
      .Cancelled ∧
    (orderStep true []
        (orderStep true [] ⟨2, 11, 300, .Created, none, 0⟩
          ⟨200, .paymentFailed, 5, 2, .paymentFailed 2, 1⟩).2.1
        ⟨201, .paymentCompleted, 6, 2, .paymentCompleted 2, 1⟩).2.1 =
      (orderStep true [] ⟨2, 11, 300, .Created, none, 0⟩
        ⟨200, .paymentFailed, 5, 2, .paymentFailed 2, 1⟩).2.1 := by
  have h := payment_failed_cancels true [] ⟨2, 11, 300, .Created, none, 0⟩
    ⟨200, .paymentFailed, 5, 2, .paymentFailed 2, 1⟩
    (Or.inl rfl) rfl rfl
  exact ⟨Or.inl rfl, h.1,
    (h.2.2.2 true [] ⟨201, .paymentCompleted, 6, 2, .paymentCompleted 2, 1⟩
      rfl).1⟩

/-- Modelled from the spec: the Broker Client's delivery contract for a
single consumer group.  A delivery sequence `d` for a publish log `log`
is admissible when, for every partition key (`aggregateId`) `k`, the
events with key `k` appear in `d` exactly in their publish order — the
per-partition-key ordering guarantee of `subscribe`; across different
keys the interleaving is unconstrained. -/
def admissibleDelivery (log d : List Envelope) : Prop :=
  ∀ k : Nat,
    d.filter (fun e => e.aggregateId == k) =
      log.filter (fun e => e.aggregateId == k)

/-- C6: for a fixed `aggregateId` `k`, if `e₁` and then `e₂` are published
in that order (they occur in that order among the key-`k` events of the
publish log), every admissible delivery — every interleaving with
concurrent publishes to other aggregate ids — delivers `e₁` before `e₂`;
and across different `aggregateId`s no order is guaranteed: there is a
publish log with two admissible deliveries that deliver two
different-key events in opposite orders. -/
theorem per_key_delivery_order :
    (∀ (log d : List Envelope) (e₁ e₂ : Envelope) (k : Nat),
      admissibleDelivery log d →
      e₁.aggregateId = k → e₂.aggregateId = k →
      List.Sublist [e₁, e₂] (log.filter (fun e => e.aggregateId == k)) →
      List.Sublist [e₁, e₂] d) ∧
    (∃ (log d₁ d₂ : List Envelope) (e₁ e₂ : Envelope),
      e₁.aggregateId ≠ e₂.aggregateId ∧
      admissibleDelivery log d₁ ∧ admissibleDelivery log d₂ ∧
      d₁ = [e₁, e₂] ∧ d₂ = [e₂, e₁]) := by
  constructor
  · intro log d e₁ e₂ k hadm _ _ hsub
    rw [← hadm k] at hsub
    exact hsub.trans (List.filter_sublist d)
  · refine ⟨([⟨0, .orderCreated, 0, 1, .orderCreated 1 100, 1⟩,
              ⟨1, .orderCreated, 0, 2, .orderCreated 2 100, 1⟩] :
        List Envelope),
      ([⟨0, .orderCreated, 0, 1, .orderCreated 1 100, 1⟩,
        ⟨1, .orderCreated, 0, 2, .orderCreated 2 100, 1⟩] : List Envelope),
      ([⟨1, .orderCreated, 0, 2, .orderCreated 2 100, 1⟩,
        ⟨0, .orderCreated, 0, 1, .orderCreated 1 100, 1⟩] : List Envelope),
      (⟨0, .orderCreated, 0, 1, .orderCreated 1 100, 1⟩ : Envelope),
      (⟨1, .orderCreated, 0, 2, .orderCreated 2 100, 1⟩ : Envelope),
      by decide, ?_, ?_, rfl, rfl⟩
    · intro k
      rfl
    · intro k
      rcases k with _ | _ | _ | n <;> rfl

/-- Witness for C6: a publish log interleaving key-1 events `a`, `b` with
a key-0 event `x`; the admissible delivery `[a, x, b]` keeps `a` before
`b`. -/
theorem per_key_delivery_order_witness :
    admissibleDelivery
      [⟨12, .orderCreated, 0, 0, .orderCreated 0 5, 1⟩,
       ⟨10, .paymentCompleted, 0, 1, .paymentCompleted 1, 1⟩,
       ⟨11, .paymentFailed, 0, 1, .paymentFailed 1, 1⟩]
      [⟨10, .paymentCompleted, 0, 1, .paymentCompleted 1, 1⟩,
       ⟨12, .orderCreated, 0, 0, .orderCreated 0 5, 1⟩,
       ⟨11, .paymentFailed, 0, 1, .paymentFailed 1, 1⟩] ∧
    List.Sublist
      ([⟨10, .paymentCompleted, 0, 1, .paymentCompleted 1, 1⟩,
        ⟨11, .paymentFailed, 0, 1, .paymentFailed 1, 1⟩] : List Envelope)
      [⟨10, .paymentCompleted, 0, 1, .paymentCompleted 1, 1⟩,
       ⟨12, .orderCreated, 0, 0, .orderCreated 0 5, 1⟩,
       ⟨11, .paymentFailed, 0, 1, .paymentFailed 1, 1⟩] := by
  have hadm : admissibleDelivery
      [⟨12, .orderCreated, 0, 0, .orderCreated 0 5, 1⟩,
       ⟨10, .paymentCompleted, 0, 1, .paymentCompleted 1, 1⟩,
       ⟨11, .paymentFailed, 0, 1, .paymentFailed 1, 1⟩]
      [⟨10, .paymentCompleted, 0, 1, .paymentCompleted 1, 1⟩,
       ⟨12, .orderCreated, 0, 0, .orderCreated 0 5, 1⟩,
       ⟨11, .paymentFailed, 0, 1, .paymentFailed 1, 1⟩] := by
    intro k
    rcases k with _ | _ | n <;> rfl
  refine ⟨hadm, ?_⟩
  refine per_key_delivery_order.1
    [⟨12, .orderCreated, 0, 0, .orderCreated 0 5, 1⟩,
     ⟨10, .paymentCompleted, 0, 1, .paymentCompleted 1, 1⟩,
     ⟨11, .paymentFailed, 0, 1, .paymentFailed 1, 1⟩]
    [⟨10, .paymentCompleted, 0, 1, .paymentCompleted 1, 1⟩,
     ⟨12, .orderCreated, 0, 0, .orderCreated 0 5, 1⟩,
     ⟨11, .paymentFailed, 0, 1, .paymentFailed 1, 1⟩]
    ⟨10, .paymentCompleted, 0, 1, .paymentCompleted 1, 1⟩
    ⟨11, .paymentFailed, 0, 1, .paymentFailed 1, 1⟩
    1 hadm rfl rfl ?_
  decide

/-- The one failure mode of the Payment Confirmation Handler: the webhook
signature does not verify. -/
inductive HandlerError where
  | SignatureInvalid
deriving DecidableEq

/-- Modelled from the spec: a payment-gateway webhook delivery — the
gateway's globally unique event identifier, the order identifier from the
gateway metadata, the gateway's success/failure status, and the raw body
and signature header handed to signature verification. -/
structure Webhook where
  gatewayEventId : Nat
  orderId : Nat
  statusOk : Bool
  rawBody : String
  sigHeader : String
deriving DecidableEq

/-- Modelled from the spec: `handleWebhook(rawBody, signatureHeader)` of
the Payment Confirmation Handler.  It verifies the signature via the
external payment-gateway collaborator `verify` and fails with
`SignatureInvalid` (no side effect) if verification fails; on success it
deduplicates redelivered webhooks on the gateway's event identifier and
publishes `payment.completed` or `payment.failed` with the gateway id as
the envelope's `eventId` and the order identifier as `aggregateId`. -/
def handleWebhook (verify : String → String → Bool) (now : Nat)
    (processed : List Nat) (w : Webhook) :
    Except HandlerError (List Nat × List Envelope) :=
  if verify w.rawBody w.sigHeader then
    if processed.contains w.gatewayEventId then
      .ok (processed, [])
    else
      .ok (w.gatewayEventId :: processed,
        [⟨w.gatewayEventId,
          if w.statusOk then .paymentCompleted else .paymentFailed,
          now, w.orderId,
          if w.statusOk then Payload.paymentCompleted w.orderId
          else Payload.paymentFailed w.orderId, 1⟩])
  else
    .error .SignatureInvalid

/-- C7: `handleWebhook` fails with `SignatureInvalid` and performs no
side effect whenever signature verification fails; and a successful
webhook delivered twice with the same gateway event id publishes exactly
one `payment.completed` envelope — the first delivery publishes a single
envelope whose `eventId` is the gateway id, the second publishes
nothing. -/
theorem webhook_signature_and_dedup (verify : String → String → Bool)
    (now : Nat) (processed : List Nat) (w : Webhook) :
    (verify w.rawBody w.sigHeader = false →
      handleWebhook verify now processed w = .error .SignatureInvalid) ∧
    (verify w.rawBody w.sigHeader = true →
      w.gatewayEventId ∉ processed →
      w.statusOk = true →
      handleWebhook verify now processed w =
        .ok (w.gatewayEventId :: processed,
          [⟨w.gatewayEventId, .paymentCompleted, now, w.orderId,
            .paymentCompleted w.orderId, 1⟩]) ∧
      (∀ now₂ : Nat,
        handleWebhook verify now₂ (w.gatewayEventId :: processed) w =
          .ok (w.gatewayEventId :: processed, []))) := by
  constructor
  · intro h
    simp [handleWebhook, h]
  · intro hv hp hok
    constructor
    · simp [handleWebhook, hv, hp, hok]
    · intro now₂
      simp [handleWebhook, hv, List.contains_cons]

/-- Witness for C7 (Scenario C): a valid webhook with gateway id 55
delivered twice publishes one `payment.completed` envelope and then
nothing. -/
theorem webhook_signature_and_dedup_witness :
    (fun (_ _ : String) => true) "body" "sig" = true ∧
    handleWebhook (fun _ _ => true) 3 [] ⟨55, 7, true, "body", "sig"⟩ =
      .ok ([55], [⟨55, .paymentCompleted, 3, 7, .paymentCompleted 7, 1⟩]) ∧
    handleWebhook (fun _ _ => true) 4 [55] ⟨55, 7, true, "body", "sig"⟩ =
      .ok ([55], []) := by
  have h := (webhook_signature_and_dedup (fun _ _ => true) 3 []
    ⟨55, 7, true, "body", "sig"⟩).2 rfl (by decide) rfl
  exact ⟨rfl, h.1, h.2 4⟩

/-- The decode failure modes of the Schema Registry. -/
inductive DecodeError where
  | SchemaError
  | MalformedPayloadError
deriving DecidableEq

/-- Whether a payload matches the schema registered for an event type:
the tag of the closed payload union must equal the `eventType`. -/
def payloadMatches : EventType → Payload → Bool
  | .orderCreated, .orderCreated _ _ => true
  | .paymentInitiated, .paymentInitiated _ => true
  | .paymentCompleted, .paymentCompleted _ => true
  | .paymentFailed, .paymentFailed _ => true
  | .orderPaid, .orderPaid _ => true
  | .orderCancelled, .orderCancelled _ => true
  | _, _ => false

/-- Modelled from the spec: the raw wire message as read off the bus,
before schema validation (the byte-level encoding is opaque to the
spec). -/
structure RawEnvelope where
  eventId : Nat
  eventType : EventType
  occurredAt : Nat
  aggregateId : Nat
  payload : Payload
  schemaVersion : Nat
deriving DecidableEq

/-- Modelled from the spec: `decode(bytes) → Envelope` of the Schema
Registry.  `supported` is the newest `schemaVersion` the consumer
understands; a newer version fails with `SchemaError`, a payload that
does not match the schema for `eventType` fails with
`MalformedPayloadError`, otherwise the decoded Envelope is returned. -/
def decode (supported : Nat) (r : RawEnvelope) : Except DecodeError Envelope :=
  if supported < r.schemaVersion then
    .error .SchemaError
  else if payloadMatches r.eventType r.payload then
    .ok ⟨r.eventId, r.eventType, r.occurredAt, r.aggregateId, r.payload,
         r.schemaVersion⟩
  else
    .error .MalformedPayloadError

/-- C8: `decode` fails with `SchemaError` when the message's
`schemaVersion` is newer than the consumer understands, fails with
`MalformedPayloadError` when the version is understood but the payload
does not match the schema for `eventType`, and otherwise returns the
decoded Envelope. -/
theorem decode_characterisation (supported : Nat) (r : RawEnvelope) :
    (supported < r.schemaVersion →
      decode supported r = .error .SchemaError) ∧
    (r.schemaVersion ≤ supported →
      payloadMatches r.eventType r.payload = false →
      decode supported r = .error .MalformedPayloadError) ∧
    (r.schemaVersion ≤ supported →
      payloadMatches r.eventType r.payload = true →
      decode supported r =
        .ok ⟨r.eventId, r.eventType, r.occurredAt, r.aggregateId, r.payload,
             r.schemaVersion⟩) := by
  refine ⟨?_, ?_, ?_⟩
  · intro h
    simp [decode, h]
  · intro h hm
    simp [decode, Nat.not_lt.mpr h, hm]
  · intro h hm
    simp [decode, Nat.not_lt.mpr h, hm]

/-- Witness for C8: all three branches at concrete raw messages — a
version-2 message against a version-1 consumer, a mismatched payload,
and a well-formed `order.created` message. -/
theorem decode_characterisation_witness :
    decode 1 ⟨1, .orderCreated, 0, 1, .orderCreated 1 9, 2⟩ =
      .error .SchemaError ∧
    decode 1 ⟨2, .orderCreated, 0, 1, .paymentCompleted 1, 1⟩ =
      .error .MalformedPayloadError ∧
    decode 1 ⟨3, .orderCreated, 0, 1, .orderCreated 1 9, 1⟩ =
      .ok ⟨3, .orderCreated, 0, 1, .orderCreated 1 9, 1⟩ := by
  refine ⟨?_, ?_, ?_⟩
  · exact (decode_characterisation 1
      ⟨1, .orderCreated, 0, 1, .orderCreated 1 9, 2⟩).1 (by decide)
  · exact (decode_characterisation 1
      ⟨2, .orderCreated, 0, 1, .paymentCompleted 1, 1⟩).2.1 (by decide) rfl
  · exact (decode_characterisation 1
      ⟨3, .orderCreated, 0, 1, .orderCreated 1 9, 1⟩).2.2 (by decide) rfl

/-- The effects the payment service's `start` function can perform:
connecting the Kafka producer or consumer, wiring the Kafka
subscriptions, or serving HTTP on a port
(`apps/payment-service/src/index.ts`). -/
inductive StartEffect where
  | connectProducer
  | connectConsumer
  | runKafkaSubscriptions
  | serveHttp (port : Nat)
deriving DecidableEq

/-- The effect sequence of `start()` in
`apps/payment-service/src/index.ts`: the producer/consumer `connect`
calls and `runKafkaSubscriptions()` are commented out in the source, so
the only effect is `serve` on port 8002. -/
def paymentServiceStart : List StartEffect :=
  [.serveHttp 8002]

/-- C9: the payment service's `start()` establishes no broker connection
and runs no Kafka subscriptions — its only effect is serving HTTP on
port 8002 — so the service publishes and consumes no saga events at
runtime. -/
theorem payment_service_start_no_kafka :
    paymentServiceStart = [.serveHttp 8002] ∧
    StartEffect.connectProducer ∉ paymentServiceStart ∧
    StartEffect.connectConsumer ∉ paymentServiceStart ∧
    StartEffect.runKafkaSubscriptions ∉ paymentServiceStart := by
  refine ⟨rfl, ?_, ?_, ?_⟩ <;> decide

/-- Middleware registered on the payment service's Hono app. -/
inductive Middleware where
  | clerk
  | cors
deriving DecidableEq

/-- The middleware applied with `app.use("*", ...)` in
`apps/payment-service/src/index.ts`: Clerk authentication and CORS,
globally on every route. -/
def globalMiddleware : List Middleware :=
  [.clerk, .cors]

/-- Middleware attached specifically to the `/health` route: the route is
registered as `app.get("/health", handler)` with no per-route
middleware. -/
def healthRouteMiddleware : List Middleware :=
  []

/-- The JSON body returned by the `/health` handler. -/
structure HealthResponse where
  status : String
  uptime : Nat
  timestamp : Nat
deriving DecidableEq

/-- The `/health` handler of `apps/payment-service/src/index.ts`: it
returns `{ status: "ok", uptime: process.uptime(), timestamp:
Date.now() }` for the current uptime and clock reading. -/
def healthHandler (uptime timestamp : Nat) : HealthResponse :=
  { status := "ok", uptime := uptime, timestamp := timestamp }

/-- C10: for every request (every uptime and clock reading) the payment
service's `GET /health` endpoint returns a JSON object whose `status`
field is the string "ok" together with the process uptime and the
current timestamp; the handler is a total function (it never fails) and
the route carries no middleware beyond the globally applied ones. -/
theorem health_endpoint_ok (uptime timestamp : Nat) :
    healthHandler uptime timestamp =
      { status := "ok", uptime := uptime, timestamp := timestamp } ∧
    (healthHandler uptime timestamp).status = "ok" ∧
    healthRouteMiddleware = [] := by
  exact ⟨rfl, rfl, rfl⟩

end EcomMicro
